import Mathlib

/-!
Shallow embedding of `src/src/codec/audioencoder.cpp` (rtplivelib), covering
`AudioEncoderPrivateData` (state, `alloc_encode_frame`, `select_sample_rate`,
`open_ctx`, `close_ctx`, `encode`, `_init_encoder`, `_set_encoder_param`) and
the `AudioEncoder` methods `get_encoder_id` and `get_thread_pause_condition`.

External FFmpeg calls (`avcodec_find_encoder_by_name`, `avcodec_alloc_context3`,
`avcodec_open2`, `av_frame_alloc`) are fallible; their outcomes for one call
into the encoder are supplied by a `CallOracle` record.  Diagnostics-sink
reports (`core::Logger::Print_APP_Info` / `Print_FFMPEG_Info`) and downstream
packet emission are recorded as an ordered `List Event`.  A null-pointer
dereference is modelled as the `none` outcome of an `Option` result.
-/

namespace codec

/-- Modelled from the spec: `core::Format` is defined outside `src/` (only its
use sites appear there).  Per spec section 3 it is a value type with sample
width, channel count, sample rate and layout tag, compared by equality; the
embedded code uses only its decidable equality and its default construction
(taken here as all-zero fields). -/
structure Format where
  bits : Nat
  channels : Nat
  sample_rate : Nat
  layout : Nat
deriving DecidableEq

/-- Relevant capability fields of FFmpeg's `AVCodec`: the codec id and the
zero-terminated advertised lists (a null pointer is `none`; the list holds the
entries before the terminator, hence entries are nonzero in any real codec). -/
structure AVCodec where
  id : Nat
  sample_fmts : Option (List Nat)
  supported_samplerates : Option (List Int)
  channel_layouts : Option (List Nat)
deriving DecidableEq

/-- Fields of FFmpeg's `AVCodecContext` read or written by the embedded code. -/
structure AVCodecContext where
  sample_fmt : Nat
  bit_rate : Int
  sample_rate : Int
  channel_layout : Nat
  channels : Nat
  frame_size : Nat
deriving DecidableEq

/-- Context as returned by `avcodec_alloc_context3` (default-initialised). -/
def AVCodecContext.fresh : AVCodecContext :=
  { sample_fmt := 0, bit_rate := 0, sample_rate := 0, channel_layout := 0,
    channels := 0, frame_size := 0 }

/-- Fields of FFmpeg's `AVFrame` written by `alloc_encode_frame`. -/
structure AVFrame where
  nb_samples : Nat
  format : Nat
  channel_layout : Nat
deriving DecidableEq

/-- Frame as returned by `av_frame_alloc` (default-initialised). -/
def AVFrame.fresh : AVFrame :=
  { nb_samples := 0, format := 0, channel_layout := 0 }

/-- Value of FFmpeg's `AV_SAMPLE_FMT_S16`. -/
def AV_SAMPLE_FMT_S16 : Nat := 1

/-- Value of FFmpeg's `AV_CH_LAYOUT_STEREO` (front-left | front-right). -/
def AV_CH_LAYOUT_STEREO : Nat := 3

/-- Observable events of one call into the encoder: the codec-resolution
invocation, each diagnostics-sink report the code makes, and downstream packet
emission (the source file contains no emission site, so no definition below
ever produces `packetEmitted`; the constructor exists so its absence from
traces is a statable property). -/
inductive Event where
  | findEncoderCalled
  | logEncoderNotFound
  | logCtxAllocFailed
  | logEncoderInitSuccess
  | logCodecOpenFailed
  | logFFmpegInfo
  | packetEmitted
deriving DecidableEq

/-- Outcomes of the external FFmpeg calls that one call into the encoder may
make: the result of `avcodec_find_encoder_by_name`, success of
`avcodec_alloc_context3`, the return value of `avcodec_open2` (negative means
failure) together with the `frame_size` it writes into the context on success,
and success of each of the up-to-two `av_frame_alloc` calls (the one in the
outer `alloc_encode_frame`, and the one inside the flush that `close_ctx`
performs via `encode(nullptr)`). -/
structure CallOracle where
  find_res : Option AVCodec
  alloc_ctx_ok : Bool
  open2_ret : Int
  open2_frame_size : Nat
  frame_alloc_ok : Bool
  inner_frame_alloc_ok : Bool
deriving DecidableEq

/-- State of `AudioEncoderPrivateData`: the `encoder`, `encoder_ctx` and
`encode_frame` pointers (null is `none`), the recorded `format`, and the
`reassignment` flag. -/
structure AEPD where
  encoder : Option AVCodec
  encoder_ctx : Option AVCodecContext
  format : Format
  encode_frame : Option AVFrame
  reassignment : Bool
deriving DecidableEq

/-- State of a freshly constructed `AudioEncoderPrivateData`: all pointers
null, `reassignment` false, `format` default-constructed. -/
def AEPD.init : AEPD :=
  { encoder := none, encoder_ctx := none, format := ⟨0, 0, 0, 0⟩,
    encode_frame := none, reassignment := false }

/-- Input packet (`core::FramePacket`): only its `format` field is read here. -/
structure FramePacket where
  format : Format
deriving DecidableEq

/-- Name argument of `_init_encoder`; the code always passes `"libfdk_aac"`. -/
inductive CodecName where
  | libfdk_aac
deriving DecidableEq

/-- Embeds `select_sample_rate`'s while-loop over the zero-terminated rate
list, threading `best_samplerate` (initially 0). -/
def select_sample_rate_loop : List Int → Int → Int
  | [], best_samplerate => best_samplerate
  | p :: rest, best_samplerate =>
    if best_samplerate = 0 ∨ (44100 - p).natAbs < (44100 - best_samplerate).natAbs then
      select_sample_rate_loop rest p
    else
      select_sample_rate_loop rest best_samplerate

/-- Embeds `AudioEncoderPrivateData::select_sample_rate`: 44100 when no rate
list is advertised, otherwise the loop result starting from 0. -/
def select_sample_rate (codec : AVCodec) : Int :=
  match codec.supported_samplerates with
  | none => 44100
  | some rates => select_sample_rate_loop rates 0

/-- Embeds `AudioEncoderPrivateData::_set_encoder_param`: ignores its format
argument (`UNUSED(format)`) and installs the hard-coded parameters. -/
def _set_encoder_param (_fmt : Format) (c : AVCodecContext) : AVCodecContext :=
  { c with
    sample_fmt := AV_SAMPLE_FMT_S16, bit_rate := 64000, sample_rate := 44100,
    channel_layout := AV_CH_LAYOUT_STEREO, channels := 2 }

/-- Embeds `AudioEncoderPrivateData::alloc_encode_frame`.  Returns the updated
state and the C function's boolean result; `none` models the null-pointer
dereference of `encoder_ctx` that the field reads would perform if the context
were null while `reassignment` is set. -/
def alloc_encode_frame (s : AEPD) (frame_alloc_ok : Bool) : Option (AEPD × Bool) :=
  let ef : Option AVFrame :=
    match s.encode_frame with
    | none => if frame_alloc_ok then some AVFrame.fresh else none
    | some f => some f
  match ef, s.reassignment with
  | some _, true =>
    match s.encoder_ctx with
    | none => none
    | some ctx =>
      some ({ s with
              encode_frame := some ⟨ctx.frame_size, ctx.sample_fmt, ctx.channel_layout⟩,
              reassignment := false }, true)
  | _, _ => some ({ s with encode_frame := ef }, false)

/-- Embeds `AudioEncoderPrivateData::close_ctx`.  When the context is non-null
it first calls `encode(nullptr)`; that recursive call is inlined here: with a
non-null context and a null packet, `encode` runs `alloc_encode_frame` and then
falls off the (empty) tail of its body, so its whole effect is the
`alloc_encode_frame` state update.  Then `avcodec_free_context` nulls the
context. -/
def close_ctx (s : AEPD) (inner_frame_alloc_ok : Bool) : Option AEPD :=
  match s.encoder_ctx with
  | none => some s
  | some _ =>
    match alloc_encode_frame s inner_frame_alloc_ok with
    | none => none
    | some (s1, _) => some { s1 with encoder_ctx := none }

/-- Embeds `AudioEncoderPrivateData::_init_encoder`: stores the resolution
result in `encoder`, logs and fails when it is null; otherwise frees any
existing context, allocates a fresh one (failure logged), applies
`_set_encoder_param`, and logs success. -/
def _init_encoder (s : AEPD) (_name : CodecName) (fmt : Format)
    (find_res : Option AVCodec) (alloc_ctx_ok : Bool) : AEPD × List Event × Bool :=
  let s1 : AEPD := { s with encoder := find_res }
  match find_res with
  | none => (s1, ([Event.findEncoderCalled, Event.logEncoderNotFound], false))
  | some _ =>
    let s2 : AEPD := { s1 with encoder_ctx := none }
    if alloc_ctx_ok then
      ({ s2 with encoder_ctx := some (_set_encoder_param fmt AVCodecContext.fresh) },
         ([Event.findEncoderCalled, Event.logEncoderInitSuccess], true))
    else
      (s2, ([Event.findEncoderCalled, Event.logCtxAllocFailed], false))

/-- Embeds `AudioEncoderPrivateData::open_ctx`: no-op success when the context
is non-null and the recorded format equals the packet's; otherwise `close_ctx`,
`_init_encoder`, then `avcodec_open2` (failure logged twice and reported as
`false`; success updates `frame_size` in the context, records the packet's
format and sets `reassignment`). -/
def open_ctx (s : AEPD) (packet : FramePacket) (o : CallOracle) :
    Option (AEPD × List Event × Bool) :=
  if s.encoder_ctx.isSome = true ∧ s.format = packet.format then
    some (s, ([], true))
  else
    match close_ctx s o.inner_frame_alloc_ok with
    | none => none
    | some s1 =>
      match _init_encoder s1 CodecName.libfdk_aac packet.format o.find_res o.alloc_ctx_ok with
      | (s2, (ev, false)) => some (s2, (ev, false))
      | (s2, (ev, true)) =>
        if o.open2_ret < 0 then
          some (s2, (ev ++ [Event.logCodecOpenFailed, Event.logFFmpegInfo], false))
        else
          some ({ s2 with
                  encoder_ctx := Option.map (fun c => { c with frame_size := o.open2_frame_size }) s2.encoder_ctx,
                  format := packet.format,
                  reassignment := true },
                 (ev, true))

/-- Embeds `AudioEncoderPrivateData::encode`.  The boolean in the result is
true exactly when control reaches the point after the `alloc_encode_frame`
guard (the body past that point is empty in the source: it only declares `ret`
and `api`).  A null packet with a null context returns immediately; a real
packet first runs `open_ctx` and aborts on its failure; a failed
`alloc_encode_frame` aborts either path. -/
def encode (s : AEPD) (packet : Option FramePacket) (o : CallOracle) :
    Option (AEPD × List Event × Bool) :=
  match packet with
  | some pkt =>
    match open_ctx s pkt o with
    | none => none
    | some (s1, (ev, false)) => some (s1, (ev, false))
    | some (s1, (ev, true)) =>
      match alloc_encode_frame s1 o.frame_alloc_ok with
      | none => none
      | some (s2, false) => some (s2, (ev, false))
      | some (s2, true) => some (s2, (ev, true))
  | none =>
    match s.encoder_ctx with
    | none => some (s, ([], false))
    | some _ =>
      match alloc_encode_frame s o.frame_alloc_ok with
      | none => none
      | some (s2, b) => some (s2, ([], b))

/-- Folds `encode` over a sequence of (packet, oracle) pairs, concatenating
the event traces in order. -/
def encodeSeq : AEPD → List (FramePacket × CallOracle) → Option (AEPD × List Event)
  | s, [] => some (s, [])
  | s, (pkt, o) :: rest =>
    match encode s (some pkt) o with
    | none => none
    | some (s1, (ev, _)) =>
      match encodeSeq s1 rest with
      | none => none
      | some (s2, evs) => some (s2, ev ++ evs)

/-- Queue handle as seen by the worker-loop methods: only `has_data` is
consulted by the embedded code. -/
structure InputQueue where
  has_data : Bool
deriving DecidableEq

/-- State of `AudioEncoder`: the swappable `_queue` reference (null is `none`)
and the private data. -/
structure AudioEncoderState where
  _queue : Option InputQueue
  d_ptr : AEPD
deriving DecidableEq

/-- Embeds `AudioEncoder::get_thread_pause_condition`: returns whether the
queue reference is null (and nothing else). -/
def get_thread_pause_condition (s : AudioEncoderState) : Bool :=
  s._queue.isNone

/-- Embeds `AudioEncoder::get_encoder_id`: 0 when the `encoder` pointer is
null, otherwise the resolved codec's id. -/
def get_encoder_id (s : AEPD) : Nat :=
  match s.encoder with
  | none => 0
  | some encoder => encoder.id

/-- Concrete format used in witnesses: 16-bit stereo 44.1 kHz. -/
def fmtA : Format := ⟨16, 2, 44100, 3⟩

/-- Concrete format used in witnesses: 16-bit stereo 48 kHz. -/
def fmtB : Format := ⟨16, 2, 48000, 3⟩

/-- Packet carrying `fmtA`. -/
def pktA : FramePacket := ⟨fmtA⟩

/-- Packet carrying `fmtB`. -/
def pktB : FramePacket := ⟨fmtB⟩

/-- Concrete resolved codec (id 86018 is FFmpeg's `AV_CODEC_ID_AAC`). -/
def codecA : AVCodec := ⟨86018, none, none, none⟩

/-- Oracle on which every external call succeeds (`avcodec_open2` writes a
frame size of 1024). -/
def oracleGood : CallOracle := ⟨some codecA, true, 0, 1024, true, true⟩

/-- Oracle on which resolution and allocation succeed but `avcodec_open2`
fails with -1. -/
def oracleOpenFail : CallOracle := ⟨some codecA, true, -1, 0, true, true⟩


/-- Context contents after a successful open on `oracleGood` (`frame_size`
1024 written by `avcodec_open2`). -/
def ctxOpened : AVCodecContext := ⟨1, 64000, 44100, 3, 2, 1024⟩

/-- Staging frame after resynchronisation from `ctxOpened`. -/
def frameSynced : AVFrame := ⟨1024, 1, 3⟩

/-- State right after a first successful `open_ctx` on `pktA` / `oracleGood`. -/
def sOpen : AEPD := ⟨some codecA, some ctxOpened, fmtA, none, true⟩

/-- State after `sOpen` ran `alloc_encode_frame` (staging frame resynced,
`reassignment` cleared). -/
def sSync : AEPD := ⟨some codecA, some ctxOpened, fmtA, some frameSynced, false⟩

/-- Session open on `fmtB` with a synced staging frame. -/
def sOpenB : AEPD := ⟨some codecA, some ctxOpened, fmtB, some frameSynced, false⟩

/-- State after `sOpenB` encoded a packet of `fmtA` (implicit reopen). -/
def sAfterB : AEPD := ⟨some codecA, some ctxOpened, fmtA, some frameSynced, false⟩

/-- State after `open_ctx` on `oracleOpenFail` from the initial state: the
freshly allocated, parameter-set but never-activated context survives. -/
def s1fail : AEPD := ⟨some codecA, some ⟨1, 64000, 44100, 3, 2, 0⟩, ⟨0, 0, 0, 0⟩, none, false⟩

/-- Events of the failed `open_ctx` call on `oracleOpenFail`. -/
def evFail : List Event :=
  [Event.findEncoderCalled, Event.logEncoderInitSuccess,
   Event.logCodecOpenFailed, Event.logFFmpegInfo]

/-- Events of a successful non-no-op `open_ctx` call. -/
def evOpen : List Event := [Event.findEncoderCalled, Event.logEncoderInitSuccess]

/-- Codec advertising an empty (immediately zero-terminated) rate list. -/
def codecEmptyRates : AVCodec := ⟨86018, none, some [], none⟩

/-- Encoder whose queue reference is non-null but holds no ready data. -/
def emptyQ : AudioEncoderState := ⟨some ⟨false⟩, AEPD.init⟩

theorem alloc_encode_frame_ne_none (s : AEPD) (ok : Bool) (h : s.encoder_ctx.isSome = true) :
    alloc_encode_frame s ok ≠ none := by
  obtain ⟨ctx, hc⟩ := Option.isSome_iff_exists.mp h
  cases hf : s.encode_frame <;> cases hr : s.reassignment <;> cases ok <;>
    simp [alloc_encode_frame, hf, hr, hc]

theorem alloc_encode_frame_preserves (s : AEPD) (ok : Bool) (s2 : AEPD) (b : Bool)
    (h : alloc_encode_frame s ok = some (s2, b)) :
    s2.encoder = s.encoder ∧ s2.encoder_ctx = s.encoder_ctx ∧ s2.format = s.format := by
  cases hc : s.encoder_ctx <;> cases hf : s.encode_frame <;> cases hr : s.reassignment <;>
      cases ok <;> simp [alloc_encode_frame, hf, hr, hc] at h <;>
    obtain ⟨h1, h2⟩ := h <;> subst h1 <;> simp

theorem close_ctx_ne_none (s : AEPD) (ok : Bool) : close_ctx s ok ≠ none := by
  cases hc : s.encoder_ctx with
  | none => simp [close_ctx, hc]
  | some ctx =>
    have h := alloc_encode_frame_ne_none s ok (by simp [hc])
    cases ha : alloc_encode_frame s ok with
    | none => exact absurd ha h
    | some r => simp [close_ctx, hc, ha]

theorem close_ctx_spec (s : AEPD) (ok : Bool) (s1 : AEPD)
    (h : close_ctx s ok = some s1) :
    s1.encoder_ctx = none ∧ s1.format = s.format ∧ s1.encoder = s.encoder := by
  cases hc : s.encoder_ctx with
  | none =>
    simp [close_ctx, hc] at h
    subst h
    exact ⟨hc, rfl, rfl⟩
  | some ctx =>
    cases ha : alloc_encode_frame s ok with
    | none => simp [close_ctx, hc, ha] at h
    | some r =>
      simp [close_ctx, hc, ha] at h
      obtain ⟨hf1, hf2, hf3⟩ := alloc_encode_frame_preserves s ok r.1 r.2 (by rw [ha])
      subst h
      exact ⟨rfl, hf3, hf1⟩

theorem open_ctx_noop (s : AEPD) (pkt : FramePacket) (o : CallOracle)
    (h1 : s.encoder_ctx.isSome = true) (h2 : s.format = pkt.format) :
    open_ctx s pkt o = some (s, ([], true)) := by
  unfold open_ctx
  rw [if_pos ⟨h1, h2⟩]

theorem open_ctx_ne_none (s : AEPD) (pkt : FramePacket) (o : CallOracle) :
    open_ctx s pkt o ≠ none := by
  unfold open_ctx
  split
  · simp
  · cases hcc : close_ctx s o.inner_frame_alloc_ok with
    | none => exact absurd hcc (close_ctx_ne_none s o.inner_frame_alloc_ok)
    | some s1 =>
      cases hfr : o.find_res with
      | none => simp [_init_encoder, hfr]
      | some c =>
        cases hao : o.alloc_ctx_ok
        · simp [_init_encoder, hfr, hao]
        · simp [_init_encoder, hfr, hao]
          split <;> simp

theorem open_ctx_failure_spec (s : AEPD) (pkt : FramePacket) (o : CallOracle)
    (s1 : AEPD) (ev : List Event)
    (h : open_ctx s pkt o = some (s1, (ev, false))) :
    (Event.logEncoderNotFound ∈ ev ∨ Event.logCtxAllocFailed ∈ ev ∨ Event.logCodecOpenFailed ∈ ev)
    ∧ s1.format = s.format
    ∧ (s1.encoder_ctx.isSome = true ↔ (o.find_res.isSome = true ∧ o.alloc_ctx_ok = true)) := by
  unfold open_ctx at h
  split at h
  · simp at h
  · cases hcc : close_ctx s o.inner_frame_alloc_ok with
    | none => exact absurd hcc (close_ctx_ne_none s o.inner_frame_alloc_ok)
    | some sc =>
      obtain ⟨hc1, hc2, hc3⟩ := close_ctx_spec s o.inner_frame_alloc_ok sc hcc
      rw [hcc] at h
      cases hfr : o.find_res with
      | none =>
        simp [_init_encoder, hfr] at h
        obtain ⟨hs, hev⟩ := h
        subst hs
        subst hev
        simp [hc1, hc2]
      | some c =>
        cases hao : o.alloc_ctx_ok
        · simp [_init_encoder, hfr, hao] at h
          obtain ⟨hs, hev⟩ := h
          subst hs
          subst hev
          simp [hc2]
        · simp [_init_encoder, hfr, hao] at h
          split at h
          · simp at h
            obtain ⟨hs, hev⟩ := h
            subst hs
            subst hev
            simp [hc2]
          · simp at h


theorem open_ctx_success_spec (s : AEPD) (pkt : FramePacket) (o : CallOracle)
    (s1 : AEPD) (ev : List Event)
    (h : open_ctx s pkt o = some (s1, (ev, true))) :
    s1.format = pkt.format
    ∧ s1.encoder_ctx.isSome = true
    ∧ ((s.encoder_ctx.isSome = true ∧ s.format = pkt.format) → s1 = s ∧ ev = [])
    ∧ (¬(s.encoder_ctx.isSome = true ∧ s.format = pkt.format) →
        s1.reassignment = true ∧ s1.encoder = o.find_res ∧
          List.count Event.findEncoderCalled ev = 1) := by
  unfold open_ctx at h
  split at h
  case isTrue hg =>
    simp at h
    obtain ⟨hs, hev⟩ := h
    subst hs
    subst hev
    exact ⟨hg.2, hg.1, fun _ => ⟨rfl, rfl⟩, fun hn => absurd hg hn⟩
  case isFalse hg =>
    cases hcc : close_ctx s o.inner_frame_alloc_ok with
    | none => exact absurd hcc (close_ctx_ne_none s o.inner_frame_alloc_ok)
    | some sc =>
      rw [hcc] at h
      cases hfr : o.find_res with
      | none => simp [_init_encoder, hfr] at h
      | some c =>
        cases hao : o.alloc_ctx_ok
        · simp [_init_encoder, hfr, hao] at h
        · simp [_init_encoder, hfr, hao] at h
          split at h
          · simp at h
          · simp at h
            obtain ⟨hs, hev⟩ := h
            subst hs
            subst hev
            refine ⟨rfl, rfl, fun hp => absurd hp hg, fun _ => ⟨rfl, by simp [hfr], by decide⟩⟩

theorem open_ctx_else_spec (s : AEPD) (pkt : FramePacket) (o : CallOracle)
    (s1 : AEPD) (ev : List Event) (b : Bool)
    (hg : ¬(s.encoder_ctx.isSome = true ∧ s.format = pkt.format))
    (h : open_ctx s pkt o = some (s1, (ev, b))) :
    Event.findEncoderCalled ∈ ev ∧ Event.packetEmitted ∉ ev ∧ s1.encoder = o.find_res := by
  unfold open_ctx at h
  rw [if_neg hg] at h
  cases hcc : close_ctx s o.inner_frame_alloc_ok with
  | none => exact absurd hcc (close_ctx_ne_none s o.inner_frame_alloc_ok)
  | some sc =>
    rw [hcc] at h
    cases hfr : o.find_res with
    | none =>
      simp [_init_encoder, hfr] at h
      obtain ⟨hs, hev, hb⟩ := h
      subst hs
      subst hev
      simp
    | some c =>
      cases hao : o.alloc_ctx_ok
      · simp [_init_encoder, hfr, hao] at h
        obtain ⟨hs, hev, hb⟩ := h
        subst hs
        subst hev
        simp
      · simp [_init_encoder, hfr, hao] at h
        split at h
        · simp at h
          obtain ⟨hs, hev, hb⟩ := h
          subst hs
          subst hev
          simp
        · simp at h
          obtain ⟨hs, hev, hb⟩ := h
          subst hs
          subst hev
          simp

theorem encode_ne_none (s : AEPD) (packet : Option FramePacket) (o : CallOracle) :
    encode s packet o ≠ none := by
  cases packet with
  | none =>
    cases hc : s.encoder_ctx with
    | none => simp [encode, hc]
    | some ctx =>
      cases ha : alloc_encode_frame s o.frame_alloc_ok with
      | none => exact absurd ha (alloc_encode_frame_ne_none s o.frame_alloc_ok (by simp [hc]))
      | some r => simp [encode, hc, ha]
  | some pkt =>
    cases ho : open_ctx s pkt o with
    | none => exact absurd ho (open_ctx_ne_none s pkt o)
    | some r =>
      obtain ⟨s1, ev, b⟩ := r
      cases b with
      | false => simp [encode, ho]
      | true =>
        have hctx := (open_ctx_success_spec s pkt o s1 ev ho).2.1
        cases ha : alloc_encode_frame s1 o.frame_alloc_ok with
        | none => exact absurd ha (alloc_encode_frame_ne_none s1 o.frame_alloc_ok hctx)
        | some r2 =>
          obtain ⟨s2, b2⟩ := r2
          cases b2 <;> simp [encode, ho, ha]

theorem encode_noop_format_eq (s : AEPD) (pkt : FramePacket) (o : CallOracle)
    (h1 : s.encoder_ctx.isSome = true) (h2 : s.format = pkt.format) :
    encode s (some pkt) o
      = Option.map (fun r => (r.1, (([] : List Event), r.2)))
          (alloc_encode_frame s o.frame_alloc_ok) := by
  simp only [encode]
  rw [open_ctx_noop s pkt o h1 h2]
  cases ha : alloc_encode_frame s o.frame_alloc_ok with
  | none => simp [ha]
  | some r =>
    obtain ⟨a, b⟩ := r
    cases b <;> simp [ha]

theorem encodeSeq_same_format (s : AEPD) (l : List (FramePacket × CallOracle))
    (h1 : s.encoder_ctx.isSome = true)
    (h2 : ∀ p ∈ l, (Prod.fst p).format = s.format) :
    ∃ s2, encodeSeq s l = some (s2, [])
      ∧ s2.encoder_ctx = s.encoder_ctx ∧ s2.format = s.format ∧ s2.encoder = s.encoder := by
  induction l generalizing s with
  | nil => exact ⟨s, rfl, rfl, rfl, rfl⟩
  | cons hd tl ih =>
    obtain ⟨pkt, o⟩ := hd
    have hfmt : s.format = pkt.format := (h2 (pkt, o) (List.mem_cons_self _ _)).symm
    have henc := encode_noop_format_eq s pkt o h1 hfmt
    cases ha : alloc_encode_frame s o.frame_alloc_ok with
    | none => exact absurd ha (alloc_encode_frame_ne_none s o.frame_alloc_ok h1)
    | some r =>
      obtain ⟨a, b⟩ := r
      obtain ⟨hp1, hp2, hp3⟩ := alloc_encode_frame_preserves s o.frame_alloc_ok a b ha
      rw [ha] at henc
      have h1a : a.encoder_ctx.isSome = true := by rw [hp2]; exact h1
      have h2a : ∀ p ∈ tl, (Prod.fst p).format = a.format := by
        intro p hp
        rw [hp3]
        exact h2 p (List.mem_cons_of_mem _ hp)
      obtain ⟨s2, hs1, hs2, hs3, hs4⟩ := ih a h1a h2a
      refine ⟨s2, ?_, ?_, ?_, ?_⟩
      · simp [encodeSeq, henc, hs1]
      · rw [hs2, hp2]
      · rw [hs3, hp3]
      · rw [hs4, hp1]


theorem select_sample_rate_loop_spec (l : List Int) (best : Int)
    (hb : best ≠ 0) (hl : ∀ r ∈ l, r ≠ 0) :
    (select_sample_rate_loop l best = best ∨ select_sample_rate_loop l best ∈ l)
    ∧ (44100 - select_sample_rate_loop l best).natAbs ≤ (44100 - best).natAbs
    ∧ (∀ r ∈ l, (44100 - select_sample_rate_loop l best).natAbs ≤ (44100 - r).natAbs) := by
  induction l generalizing best with
  | nil => exact ⟨Or.inl rfl, le_refl _, fun r hr => absurd hr (List.not_mem_nil r)⟩
  | cons p rest ih =>
    have hp : p ≠ 0 := hl p (List.mem_cons_self _ _)
    have hrest : ∀ r ∈ rest, r ≠ 0 := fun r hr => hl r (List.mem_cons_of_mem _ hr)
    by_cases hcond : best = 0 ∨ (44100 - p).natAbs < (44100 - best).natAbs
    · rw [select_sample_rate_loop, if_pos hcond]
      obtain ⟨ihm, ihb, ihall⟩ := ih p hp hrest
      have hpb : (44100 - p).natAbs < (44100 - best).natAbs := hcond.resolve_left hb
      refine ⟨?_, ?_, ?_⟩
      · cases ihm with
        | inl he => exact Or.inr (by rw [he]; exact List.mem_cons_self _ _)
        | inr hm => exact Or.inr (List.mem_cons_of_mem _ hm)
      · exact le_trans ihb (le_of_lt hpb)
      · intro r hr
        rcases List.mem_cons.mp hr with h | h
        · rw [h]; exact ihb
        · exact ihall r h
    · rw [select_sample_rate_loop, if_neg hcond]
      obtain ⟨ihm, ihb, ihall⟩ := ih best hb hrest
      push_neg at hcond
      refine ⟨?_, ihb, ?_⟩
      · cases ihm with
        | inl he => exact Or.inl he
        | inr hm => exact Or.inr (List.mem_cons_of_mem _ hm)
      · intro r hr
        rcases List.mem_cons.mp hr with h | h
        · rw [h]; exact le_trans ihb hcond.2
        · exact ihall r h


theorem alloc_encode_frame_spec (s : AEPD) (ok : Bool) (ctx : AVCodecContext)
    (s2 : AEPD) (b : Bool) (hc : s.encoder_ctx = some ctx)
    (h : alloc_encode_frame s ok = some (s2, b)) :
    (b = true ↔ (s2.encode_frame.isSome = true ∧ s.reassignment = true))
    ∧ (b = true → s2.reassignment = false
        ∧ s2.encode_frame = some ⟨ctx.frame_size, ctx.sample_fmt, ctx.channel_layout⟩)
    ∧ (s.reassignment = false → b = false) := by
  cases hf : s.encode_frame <;> cases hr : s.reassignment <;> cases ok <;>
      simp [alloc_encode_frame, hf, hr, hc] at h <;>
    obtain ⟨h1, h2⟩ := h <;> subst h1 <;> subst h2 <;> simp [hf, hr]



/-- C1: as stated the claim is false; this is the counterexample.  From the
initial state, with codec resolution and context allocation succeeding but
`avcodec_open2` failing, `open_ctx` reports failure (`false`) yet leaves a
non-null `encoder_ctx` behind, and its recorded format is not the packet's:
the session is not left in the prior closed state. -/
theorem C1_counterexample :
    Option.map (fun r => ((Prod.snd (Prod.snd r)), (Prod.fst r).encoder_ctx.isSome,
        decide ((Prod.fst r).format = pktA.format)))
      (open_ctx AEPD.init pktA oracleOpenFail) = some (false, true, false) := by
  decide

/-- C1 (amended): every failing `open_ctx` call reports at least one warning
to the diagnostics sink and leaves the recorded format unchanged; the context
is left null (session closed) exactly when the failure was codec resolution or
context allocation — an activation (`avcodec_open2`) failure leaves the newly
allocated, never-activated context non-null. -/
theorem C1_amended (s : AEPD) (pkt : FramePacket) (o : CallOracle)
    (s1 : AEPD) (ev : List Event)
    (h : open_ctx s pkt o = some (s1, (ev, false))) :
    (Event.logEncoderNotFound ∈ ev ∨ Event.logCtxAllocFailed ∈ ev
      ∨ Event.logCodecOpenFailed ∈ ev)
    ∧ s1.format = s.format
    ∧ (s1.encoder_ctx.isSome = true ↔ (o.find_res.isSome = true ∧ o.alloc_ctx_ok = true)) :=
  open_ctx_failure_spec s pkt o s1 ev h

/-- C1 witness: the amended theorem applied to the concrete failed activation. -/
theorem C1_witness :
    (Event.logEncoderNotFound ∈ evFail ∨ Event.logCtxAllocFailed ∈ evFail
      ∨ Event.logCodecOpenFailed ∈ evFail)
    ∧ s1fail.format = AEPD.init.format
    ∧ (s1fail.encoder_ctx.isSome = true
        ↔ (oracleOpenFail.find_res.isSome = true ∧ oracleOpenFail.alloc_ctx_ok = true)) :=
  C1_amended AEPD.init pktA oracleOpenFail s1fail evFail (by decide)

/-- C2: reopening an already-open session with an equal format is a no-op
success (state untouched, no events, hence no codec resolution); a whole
equal-format sequence emits no events at all and leaves the session as it
was; and a successful open from a closed session invokes codec resolution
exactly once — so the session opens at most once per equal-format sequence. -/
theorem C2_open_at_most_once :
    (∀ (s : AEPD) (pkt : FramePacket) (o : CallOracle),
        s.encoder_ctx.isSome = true → s.format = pkt.format →
        open_ctx s pkt o = some (s, ([], true)))
    ∧ (∀ (s : AEPD) (l : List (FramePacket × CallOracle)),
        s.encoder_ctx.isSome = true → (∀ p ∈ l, (Prod.fst p).format = s.format) →
        ∃ s2, encodeSeq s l = some (s2, [])
          ∧ s2.encoder_ctx = s.encoder_ctx ∧ s2.format = s.format ∧ s2.encoder = s.encoder)
    ∧ (∀ (s : AEPD) (pkt : FramePacket) (o : CallOracle) (s1 : AEPD) (ev : List Event),
        s.encoder_ctx = none → open_ctx s pkt o = some (s1, (ev, true)) →
        List.count Event.findEncoderCalled ev = 1) :=
  ⟨open_ctx_noop,
   fun s l h1 h2 => encodeSeq_same_format s l h1 h2,
   fun s pkt o s1 ev hn h =>
     ((open_ctx_success_spec s pkt o s1 ev h).2.2.2 (by simp [hn])).2.2⟩

/-- C2 witness: the three parts at concrete inputs (an open session on
`fmtA`, a one-frame equal-format sequence, and a first open from closed). -/
theorem C2_witness :
    open_ctx sOpen pktA oracleGood = some (sOpen, ([], true))
    ∧ (∃ s2, encodeSeq sOpen [(pktA, oracleGood)] = some (s2, [])
        ∧ s2.encoder_ctx = sOpen.encoder_ctx ∧ s2.format = sOpen.format
        ∧ s2.encoder = sOpen.encoder)
    ∧ List.count Event.findEncoderCalled evOpen = 1 :=
  ⟨C2_open_at_most_once.1 sOpen pktA oracleGood (by decide) (by decide),
   C2_open_at_most_once.2.1 sOpen [(pktA, oracleGood)] (by decide) (by decide),
   C2_open_at_most_once.2.2 AEPD.init pktA oracleGood sOpen evOpen (by decide) (by decide)⟩


/-- C3: as stated the claim is false; this is the counterexample.  With an
open session, a clear reassignment flag and an already-allocated staging
frame, `encode` on an equal-format packet aborts (the boolean is false: it
never reaches the encoding step), although staging-frame allocation
succeeded — the abort is caused by the clear flag, not by allocation failure. -/
theorem C3_counterexample :
    encode sSync (some pktA) oracleGood = some (sSync, ([], false))
    ∧ sSync.encode_frame.isSome = true := by
  decide

/-- C3 (amended): in the staging step the frame fields are resynchronised
from the session exactly when the reassignment flag is set, the flag is then
cleared, and the step reports success only when the staging frame is
available AND the flag was set; `encode` proceeds to the encoding step
exactly when the staging step reported success, so it aborts not only on
allocation failure but on every call where the flag is clear. -/
theorem C3_amended :
    (∀ (s : AEPD) (ok : Bool) (ctx : AVCodecContext) (s2 : AEPD) (b : Bool),
        s.encoder_ctx = some ctx → alloc_encode_frame s ok = some (s2, b) →
        ((b = true ↔ (s2.encode_frame.isSome = true ∧ s.reassignment = true))
         ∧ (b = true → s2.reassignment = false
             ∧ s2.encode_frame = some ⟨ctx.frame_size, ctx.sample_fmt, ctx.channel_layout⟩)
         ∧ (s.reassignment = false → b = false)))
    ∧ (∀ (s : AEPD) (pkt : FramePacket) (o : CallOracle),
        s.encoder_ctx.isSome = true → s.format = pkt.format →
        encode s (some pkt) o
          = Option.map (fun r => ((Prod.fst r), (([] : List Event), (Prod.snd r))))
              (alloc_encode_frame s o.frame_alloc_ok)) :=
  ⟨alloc_encode_frame_spec, encode_noop_format_eq⟩

/-- C3 witness: both parts at concrete inputs (the resynchronising step from
`sOpen`, and the abort of `encode` from `sSync`). -/
theorem C3_witness :
    ((true = true ↔ (sSync.encode_frame.isSome = true ∧ sOpen.reassignment = true))
     ∧ (true = true → sSync.reassignment = false
         ∧ sSync.encode_frame
             = some ⟨ctxOpened.frame_size, ctxOpened.sample_fmt, ctxOpened.channel_layout⟩)
     ∧ (sOpen.reassignment = false → true = false))
    ∧ encode sSync (some pktA) oracleGood
        = Option.map (fun r => ((Prod.fst r), (([] : List Event), (Prod.snd r))))
            (alloc_encode_frame sSync oracleGood.frame_alloc_ok) :=
  ⟨C3_amended.1 sOpen true ctxOpened sSync true (by decide) (by decide),
   C3_amended.2 sSync pktA oracleGood (by decide) (by decide)⟩

/-- C4: a frame whose format differs from the open session's recorded format
makes `encode` close and reopen the session before any encoding (codec
resolution is re-invoked, observable as `findEncoderCalled` in the trace, and
the `encoder` field is overwritten with the fresh resolution result), and no
packet is emitted downstream during that implicit reopen: the embedded code
contains no emission site at all, so the old session's buffered packets are
discarded with it. -/
theorem C4_reopen_no_flush (s : AEPD) (pkt : FramePacket) (o : CallOracle)
    (s1 : AEPD) (ev : List Event) (r : Bool)
    (_h1 : s.encoder_ctx.isSome = true) (h2 : s.format ≠ pkt.format)
    (h : encode s (some pkt) o = some (s1, (ev, r))) :
    Event.findEncoderCalled ∈ ev ∧ Event.packetEmitted ∉ ev
    ∧ s1.encoder = o.find_res := by
  have hg : ¬(s.encoder_ctx.isSome = true ∧ s.format = pkt.format) := by
    intro hc
    exact h2 hc.2
  cases ho : open_ctx s pkt o with
  | none => exact absurd ho (open_ctx_ne_none s pkt o)
  | some ra =>
    obtain ⟨sa, eva, ba⟩ := ra
    have hspec := open_ctx_else_spec s pkt o sa eva ba hg ho
    cases ba with
    | false =>
      simp [encode, ho] at h
      obtain ⟨ha1, ha2, ha3⟩ := h
      subst ha1
      subst ha2
      exact hspec
    | true =>
      have hctx := (open_ctx_success_spec s pkt o sa eva ho).2.1
      cases ha : alloc_encode_frame sa o.frame_alloc_ok with
      | none => exact absurd ha (alloc_encode_frame_ne_none sa o.frame_alloc_ok hctx)
      | some r2 =>
        obtain ⟨s2, b2⟩ := r2
        obtain ⟨hp1, hp2, hp3⟩ := alloc_encode_frame_preserves sa o.frame_alloc_ok s2 b2 ha
        cases b2 <;> simp [encode, ho, ha] at h <;>
          obtain ⟨ha1, ha2, ha3⟩ := h
        · subst ha1
          subst ha2
          exact ⟨hspec.1, hspec.2.1, by rw [hp1]; exact hspec.2.2⟩
        · subst ha1
          subst ha2
          exact ⟨hspec.1, hspec.2.1, by rw [hp1]; exact hspec.2.2⟩

/-- C4 witness: a session open on `fmtB` receives a `fmtA` packet on the
all-success oracle. -/
theorem C4_witness :
    Event.findEncoderCalled ∈ evOpen ∧ Event.packetEmitted ∉ evOpen
    ∧ sAfterB.encoder = oracleGood.find_res :=
  C4_reopen_no_flush sOpenB pktA oracleGood sAfterB evOpen true
    (by decide) (by decide) (by decide)

/-- C5: a flush call (`encode` with a null packet) while the context is null
returns immediately with the state untouched, an empty diagnostics trace and
no crash. -/
theorem C5_flush_never_opened (s : AEPD) (o : CallOracle)
    (h : s.encoder_ctx = none) :
    encode s none o = some (s, ([], false)) := by
  simp [encode, h]

/-- C5 witness: the flush no-op on the freshly constructed state. -/
theorem C5_witness : encode AEPD.init none oracleGood = some (AEPD.init, ([], false)) :=
  C5_flush_never_opened AEPD.init oracleGood (by decide)


/-- C6: as stated the claim is false; this is the counterexample.  A first
open on `pktA` succeeds and sets the reassignment flag; the staging step then
clears it; a second successful `open_ctx` on the same format is the no-op
path and returns success with the flag still clear — so not every successful
`open_ctx` call leaves the flag set. -/
theorem C6_counterexample :
    open_ctx AEPD.init pktA oracleGood = some (sOpen, (evOpen, true))
    ∧ alloc_encode_frame sOpen true = some (sSync, true)
    ∧ open_ctx sSync pktA oracleGood = some (sSync, ([], true))
    ∧ sSync.reassignment = false := by
  decide

/-- C6 (amended): after every successful `open_ctx` the recorded format
equals the packet's format; the reassignment flag is set when the call
actually (re)opened the session, while the no-op path (already open on an
equal format) leaves the whole state, the flag included, unchanged. -/
theorem C6_amended (s : AEPD) (pkt : FramePacket) (o : CallOracle)
    (s1 : AEPD) (ev : List Event)
    (h : open_ctx s pkt o = some (s1, (ev, true))) :
    s1.format = pkt.format
    ∧ ((s.encoder_ctx.isSome = true ∧ s.format = pkt.format) → s1 = s)
    ∧ (¬(s.encoder_ctx.isSome = true ∧ s.format = pkt.format) → s1.reassignment = true) := by
  have hs := open_ctx_success_spec s pkt o s1 ev h
  exact ⟨hs.1, fun hp => (hs.2.2.1 hp).1, fun hn => (hs.2.2.2 hn).1⟩

/-- C6 witness: the amended theorem on the first successful open from the
initial state. -/
theorem C6_witness :
    sOpen.format = pktA.format
    ∧ ((AEPD.init.encoder_ctx.isSome = true ∧ AEPD.init.format = pktA.format) → sOpen = AEPD.init)
    ∧ (¬(AEPD.init.encoder_ctx.isSome = true ∧ AEPD.init.format = pktA.format)
        → sOpen.reassignment = true) :=
  C6_amended AEPD.init pktA oracleGood sOpen evOpen (by decide)

/-- C7: as stated the claim is false; this is the counterexample.  From the
initial state (no session ever opened) a single `open_ctx` call fails at
activation, yet `get_encoder_id` afterwards returns 86018, not zero: a
non-zero id only means codec resolution succeeded, not that a session was
ever successfully opened. -/
theorem C7_counterexample :
    open_ctx AEPD.init pktA oracleOpenFail = some (s1fail, (evFail, false))
    ∧ get_encoder_id s1fail = 86018 := by
  decide

/-- C7 (amended): `get_encoder_id` is zero iff the `encoder` pointer is null
(or the resolved codec reports id 0, which no real codec does); and the
`encoder` pointer is only ever overwritten by `open_ctx` with the codec
resolution result — so a non-zero id witnesses a successful resolution, not a
successful session open. -/
theorem C7_amended :
    (∀ s : AEPD, get_encoder_id s = 0
        ↔ (s.encoder = none ∨ ∃ enc, s.encoder = some enc ∧ enc.id = 0))
    ∧ (∀ (s : AEPD) (pkt : FramePacket) (o : CallOracle) (s1 : AEPD)
          (ev : List Event) (b : Bool),
        open_ctx s pkt o = some (s1, (ev, b)) →
        s1.encoder = s.encoder ∨ s1.encoder = o.find_res) := by
  constructor
  · intro s
    cases he : s.encoder with
    | none => simp [get_encoder_id, he]
    | some enc => simp [get_encoder_id, he]
  · intro s pkt o s1 ev b h
    by_cases hg : (s.encoder_ctx.isSome = true ∧ s.format = pkt.format)
    · rw [open_ctx_noop s pkt o hg.1 hg.2] at h
      simp at h
      left
      rw [h.1]
    · right
      exact (open_ctx_else_spec s pkt o s1 ev b hg h).2.2

/-- C7 witness: the two parts at concrete inputs (the post-failure state, and
the concrete successful open that overwrites `encoder`). -/
theorem C7_witness :
    (get_encoder_id s1fail = 0
      ↔ (s1fail.encoder = none ∨ ∃ enc, s1fail.encoder = some enc ∧ enc.id = 0))
    ∧ (sOpen.encoder = AEPD.init.encoder ∨ sOpen.encoder = oracleGood.find_res) :=
  ⟨C7_amended.1 s1fail,
   C7_amended.2 AEPD.init pktA oracleGood sOpen evOpen true (by decide)⟩

/-- C8: as stated the claim is false; this is the counterexample.  With a
non-null queue that currently has no ready data, `get_thread_pause_condition`
returns false (the worker stays RUNNING), while the claim requires true. -/
theorem C8_counterexample :
    get_thread_pause_condition emptyQ = false
    ∧ Option.map InputQueue.has_data emptyQ._queue = some false := by
  decide

/-- C8 (amended): the pause condition holds exactly when the queue reference
is null — data availability is not consulted — and consequently the worker is
RUNNING (pause condition false) whenever the queue is non-null, with or
without ready data. -/
theorem C8_amended :
    ∀ s : AudioEncoderState,
      (get_thread_pause_condition s = true ↔ s._queue = none)
      ∧ (∀ q : InputQueue, s._queue = some q → get_thread_pause_condition s = false) := by
  intro s
  cases hq : s._queue <;> simp [get_thread_pause_condition, hq]

/-- C8 witness: the amended theorem on the empty-but-attached queue. -/
theorem C8_witness :
    (get_thread_pause_condition emptyQ = true ↔ emptyQ._queue = none)
    ∧ get_thread_pause_condition emptyQ = false :=
  ⟨(C8_amended emptyQ).1, (C8_amended emptyQ).2 ⟨false⟩ (by decide)⟩


/-- C9: as stated the claim is false; this is the counterexample.  For a
codec that advertises a rate list which is empty (its first entry is the zero
terminator), the loop never runs and `select_sample_rate` returns the initial
`best_samplerate` 0 — a value neither in the list nor equal to 44100. -/
theorem C9_counterexample :
    select_sample_rate codecEmptyRates = 0
    ∧ codecEmptyRates.supported_samplerates = some []
    ∧ select_sample_rate codecEmptyRates ∉ ([] : List Int)
    ∧ select_sample_rate codecEmptyRates ≠ 44100 := by
  decide

/-- C9 (amended): when no rate list is advertised the reference rate 44100 is
returned, and for every non-empty advertised list (entries are nonzero, being
the part before the zero terminator) the returned rate is in the list and no
listed rate is strictly closer to 44100; only the degenerate empty advertised
list yields 0. -/
theorem C9_amended (c : AVCodec) :
    (c.supported_samplerates = none → select_sample_rate c = 44100)
    ∧ (∀ (p : Int) (rest : List Int), c.supported_samplerates = some (p :: rest) →
        (∀ r ∈ p :: rest, r ≠ 0) →
        (select_sample_rate c ∈ p :: rest
         ∧ ∀ r ∈ p :: rest,
             (44100 - select_sample_rate c).natAbs ≤ (44100 - r).natAbs)) := by
  constructor
  · intro h
    simp [select_sample_rate, h]
  · intro p rest hs hl
    have hp : p ≠ 0 := hl p (List.mem_cons_self _ _)
    have hrest : ∀ r ∈ rest, r ≠ 0 := fun r hr => hl r (List.mem_cons_of_mem _ hr)
    have hstep : select_sample_rate c = select_sample_rate_loop rest p := by
      simp [select_sample_rate, hs]
      rw [select_sample_rate_loop, if_pos (Or.inl rfl)]
    obtain ⟨ihm, ihb, ihall⟩ := select_sample_rate_loop_spec rest p hp hrest
    rw [hstep]
    constructor
    · cases ihm with
      | inl he => exact by rw [he]; exact List.mem_cons_self _ _
      | inr hm => exact List.mem_cons_of_mem _ hm
    · intro r hr
      rcases List.mem_cons.mp hr with h | h
      · rw [h]
        exact ihb
      · exact ihall r h

/-- C9 witness: the amended theorem on a codec with no list and on one with
the list [8000, 48000, 44100]. -/
theorem C9_witness :
    select_sample_rate codecA = 44100
    ∧ (select_sample_rate ⟨0, none, some [8000, 48000, 44100], none⟩
          ∈ (8000 : Int) :: [48000, 44100]
       ∧ ∀ r ∈ (8000 : Int) :: [48000, 44100],
           (44100 - select_sample_rate ⟨0, none, some [8000, 48000, 44100], none⟩).natAbs
             ≤ (44100 - r).natAbs) :=
  ⟨(C9_amended codecA).1 (by decide),
   (C9_amended ⟨0, none, some [8000, 48000, 44100], none⟩).2 8000 [48000, 44100]
     (by decide) (by decide)⟩

/-- C10: `encode` never reaches a null dereference of `encoder_ctx`: the
embedding returns `none` exactly when a field read in `alloc_encode_frame`
would dereference a null context, and for every state, packet (or flush) and
oracle the result is a genuine value — the early return on the null-context
flush path and the abort on `open_ctx` failure guarantee the context is
non-null whenever `alloc_encode_frame` runs. -/
theorem C10_no_null_dereference :
    ∀ (s : AEPD) (packet : Option FramePacket) (o : CallOracle),
      (encode s packet o).isSome = true := by
  intro s packet o
  cases he : encode s packet o with
  | none => exact absurd he (encode_ne_none s packet o)
  | some r => rfl


end codec
